import Mathlib

/-!
Shallow embedding of the core calculation module of the UK name age calculator
(calculations.js).  JavaScript numbers are modelled as rationals, JS objects
keyed by year as association lists, and Math.round as floor (q + 1/2), which
agrees with the JS round-half-up convention on all inputs.  Array.prototype.sort
is stable by the ECMAScript specification, so the comparator sorts are modelled
by the stable insertion sort.
-/

/-- The module-level constant CURRENT_YEAR from calculations.js. -/
def CURRENT_YEAR : Int := 2025

/-- JS Math.round: round half toward positive infinity. -/
def jsRound (q : ℚ) : Int := ⌊q + 1 / 2⌋

/-- Lookup a key in an association list modelling a JS object (keys unique). -/
def alookup {β : Type} (l : List (Int × β)) (k : Int) : Option β :=
  match l with
  | [] => none
  | (k', v) :: rest => if k' = k then some v else alookup rest k

/-- Object.keys of the association list (as numbers). -/
def keysOf {β : Type} (l : List (Int × β)) : List Int := l.map Prod.fst

/-- One element of the distribution array produced by calculateAgeDistribution. -/
structure Entry where
  year : Int
  births : Nat
  living : Int
  age : Int
deriving DecidableEq

/-- The JS access lifeTablesData[y][age] (undefined becomes none; a negative
array index is undefined in JS). -/
def tableAt (lt : List (Int × List ℚ)) (y age : Int) : Option ℚ :=
  match alookup lt y with
  | none => none
  | some row => if 0 ≤ age then row[age.toNat]? else none

/-- The linear approximation Math.max(0, 1 - age * 0.012) from line 53. -/
def approxProb (age : Int) : ℚ := max 0 (1 - (age : ℚ) * (12 / 1000))

/-- Ascending order on years, as used by the sort comparator (a, b) => a - b. -/
def leInt (a b : Int) : Prop := a ≤ b

instance : DecidableRel leInt := fun a b => inferInstanceAs (Decidable (a ≤ b))

instance : IsTotal Int leInt := ⟨fun a b => Int.le_total a b⟩

instance : IsTrans Int leInt := ⟨fun _ _ _ hab hbc => le_trans hab hbc⟩

/-- Descending order on years, as used by the sort comparator (a, b) => b - a. -/
def geInt (a b : Int) : Prop := b ≤ a

instance : DecidableRel geInt := fun a b => inferInstanceAs (Decidable (b ≤ a))

instance : IsTotal Int geInt := ⟨fun a b => (Int.le_total a b).symm⟩

instance : IsTrans Int geInt := ⟨fun _ _ _ hab hbc => le_trans hbc hab⟩

/-- Survival probability resolution, lines 40-55 of calculations.js: exact
lookup, then the most recent year whose table defines the age (guarded by the
truthiness test on closestYear), then the linear approximation. -/
def survivalProb (lt : List (Int × List ℚ)) (year age : Int) : ℚ :=
  match tableAt lt year age with
  | some p => p
  | none =>
    let availableYears := List.insertionSort geInt (keysOf lt)
    match availableYears.find? (fun y => (tableAt lt y age).isSome) with
    | some closestYear =>
      match (if closestYear = 0 then none else tableAt lt closestYear age) with
      | some p => p
      | none => approxProb age
    | none => approxProb age

/-- calculateAgeDistribution, lines 20-69 of calculations.js.  The falsiness
guard on the two data objects is modelled by Option (a JS object, even empty,
is truthy; null or undefined is falsy), and the falsiness guard on name by the
empty string. -/
def calculateAgeDistribution (name gender : String)
    (babyNamesData : Option (List (Int × Nat)))
    (lifeTablesData : Option (List (Int × List ℚ))) : List Entry :=
  match babyNamesData, lifeTablesData with
  | some bn, some lt =>
    if name = "" then []
    else
      (List.insertionSort leInt (keysOf bn)).filterMap (fun year =>
        let births := (alookup bn year).getD 0
        if births = 0 then none
        else
          let age := CURRENT_YEAR - year
          let p := survivalProb lt year age
          some { year := year, births := births,
                 living := jsRound ((births : ℚ) * p), age := age })
  | _, _ => []

/-- The reduce on line 83/150: sum of the living fields. -/
def totalLiving (d : List Entry) : Int := d.foldl (fun s e => s + e.living) 0

/-- Descending order on entry ages, the comparator (a, b) => b.age - a.age. -/
def geAge (a b : Entry) : Prop := b.age ≤ a.age

instance : DecidableRel geAge := fun a b => inferInstanceAs (Decidable (b.age ≤ a.age))

instance : IsTotal Entry geAge := ⟨fun a b => (Int.le_total a.age b.age).symm⟩

instance : IsTrans Entry geAge := ⟨fun _ _ _ hab hbc => le_trans hbc hab⟩

/-- The sort on line 94/160: by age descending, stable. -/
def sortByAgeDesc (d : List Entry) : List Entry := List.insertionSort geAge d

/-- The cumulative walk of lines 96-101: first entry at which the running sum
of living reaches the target, returning its age. -/
def firstHitAge (entries : List Entry) (cum : Int) (target : ℚ) : Option Int :=
  match entries with
  | [] => none
  | e :: rest =>
    if target ≤ ((cum + e.living : Int) : ℚ) then some e.age
    else firstHitAge rest (cum + e.living) target

/-- calculateMedianAge, lines 77-106 of calculations.js. -/
def calculateMedianAge (d : List Entry) : Int :=
  if d.length = 0 then 0
  else
    let total := totalLiving d
    if total = 0 then 0
    else
      match firstHitAge (sortByAgeDesc d) 0 ((total : ℚ) / 2) with
      | some a => a
      | none =>
        match d with
        | [] => 0
        | h :: _ => (d.foldl (fun m e => if e.living > m.living then e else m) h).age

/-- calculateTotalLiving, lines 114-120. -/
def calculateTotalLiving (d : List Entry) : Int :=
  if d.length = 0 then 0 else totalLiving d

/-- The record returned by findPeakBirthYear. -/
structure PeakBirthYear where
  year : Int
  births : Nat
deriving DecidableEq

/-- findPeakBirthYear, lines 128-135 (reduce with initial value d[0] visits
every element). -/
def findPeakBirthYear (d : List Entry) : PeakBirthYear :=
  match d with
  | [] => ⟨0, 0⟩
  | h :: _ =>
    let peak := d.foldl (fun m e => if e.births > m.births then e else m) h
    ⟨peak.year, peak.births⟩

/-- The record returned by calculateAgeRange. -/
structure AgeRange where
  lower : Int
  upper : Int
deriving DecidableEq

/-- The fused loop of lines 166-180: one pass maintaining both percentile
registers, with the early break once both are set. -/
def rangeLoop (entries : List Entry) (cum : Int) (totalLiv : Int)
    (lowerTarget upperTarget : ℚ) (lowerAge upperAge : Option Int) :
    Option Int × Option Int :=
  match entries with
  | [] => (lowerAge, upperAge)
  | e :: rest =>
    let cum2 := cum + e.living
    let upperAge2 :=
      if upperAge = none ∧ (totalLiv : ℚ) - upperTarget ≤ (cum2 : ℚ) then some e.age
      else upperAge
    let lowerAge2 :=
      if lowerAge = none ∧ (totalLiv : ℚ) - lowerTarget ≤ (cum2 : ℚ) then some e.age
      else lowerAge
    if lowerAge2 ≠ none ∧ upperAge2 ≠ none then (lowerAge2, upperAge2)
    else rangeLoop rest cum2 totalLiv lowerTarget upperTarget lowerAge2 upperAge2

/-- calculateAgeRange, lines 145-186 of calculations.js.  The final
lowerAge || 0 is modelled by getD 0, which agrees with JS here because a
numeric age of 0 maps to 0 either way. -/
def calculateAgeRange (d : List Entry) (lowerPercentile : ℚ := 10)
    (upperPercentile : ℚ := 90) : AgeRange :=
  if d.length = 0 then ⟨0, 0⟩
  else
    let total := totalLiving d
    if total = 0 then ⟨0, 0⟩
    else
      let lowerTarget := (total : ℚ) * (lowerPercentile / 100)
      let upperTarget := (total : ℚ) * (upperPercentile / 100)
      let res := rangeLoop (sortByAgeDesc d) 0 total lowerTarget upperTarget none none
      ⟨(res.1).getD 0, (res.2).getD 0⟩

/-- The yearRange record inside calculateStats. -/
structure YearRange where
  earliest : Int
  latest : Int
deriving DecidableEq

/-- The record returned by calculateStats. -/
structure SummaryStats where
  totalLiving : Int
  medianAge : Int
  peakBirthYear : PeakBirthYear
  ageRange : AgeRange
  yearRange : YearRange
deriving DecidableEq

/-- calculateStats, lines 194-210 of calculations.js. -/
def calculateStats (d : List Entry) : SummaryStats :=
  { totalLiving := calculateTotalLiving d
    medianAge := calculateMedianAge d
    peakBirthYear := findPeakBirthYear d
    ageRange := calculateAgeRange d 10 90
    yearRange :=
      { earliest := match d with | [] => 0 | h :: _ => h.year
        latest := match d.getLast? with | none => 0 | some e => e.year } }

/-- Sum of the living fields over the first n entries (used to state what the
cumulative walk computes). -/
def cumLiving (l : List Entry) (n : Nat) : Int := ((l.take n).map Entry.living).sum

/-- A percentile register: keep the current value once set, else take the new one. -/
def regOr (a b : Option Int) : Option Int :=
  match a with
  | some x => some x
  | none => b






lemma totalLiving_eq (d : List Entry) : totalLiving d = (d.map Entry.living).sum := by
  suffices h : ∀ (l : List Entry) (s : Int),
      l.foldl (fun s e => s + e.living) s = s + (l.map Entry.living).sum by
    simpa [totalLiving] using h d 0
  intro l
  induction l with
  | nil => intro s; simp
  | cons e rest ih => intro s; simp [ih]; ring

lemma sortByAgeDesc_perm (d : List Entry) : List.Perm (sortByAgeDesc d) d :=
  List.perm_insertionSort geAge d

lemma sortByAgeDesc_sorted (d : List Entry) : List.Sorted geAge (sortByAgeDesc d) :=
  List.sorted_insertionSort geAge d

lemma totalLiving_sortByAgeDesc (d : List Entry) :
    totalLiving (sortByAgeDesc d) = totalLiving d := by
  rw [totalLiving_eq, totalLiving_eq]
  exact ((sortByAgeDesc_perm d).map Entry.living).sum_eq

lemma alookup_mem_pair {β : Type} (l : List (Int × β)) (k : Int) (v : β)
    (h : alookup l k = some v) : (k, v) ∈ l := by
  induction l with
  | nil => simp [alookup] at h
  | cons pr rest ih =>
    obtain ⟨k', v'⟩ := pr
    rw [alookup] at h
    by_cases hk : k' = k
    · rw [if_pos hk] at h
      obtain rfl : v' = v := by simpa using h
      subst hk
      exact List.mem_cons_self _ _
    · rw [if_neg hk] at h
      exact List.mem_cons_of_mem _ (ih h)

lemma alookup_mem_keys {β : Type} (l : List (Int × β)) (k : Int) (v : β)
    (h : alookup l k = some v) : k ∈ keysOf l := by
  have := alookup_mem_pair l k v h
  simpa [keysOf] using List.mem_map_of_mem Prod.fst this

lemma alookup_eq_none {β : Type} (l : List (Int × β)) (k : Int)
    (h : k ∉ keysOf l) : alookup l k = none := by
  induction l with
  | nil => rfl
  | cons pr rest ih =>
    obtain ⟨k', v'⟩ := pr
    rw [alookup]
    have hk : ¬ k' = k := by
      intro hk
      exact h (by simp [keysOf, hk])
    rw [if_neg hk]
    exact ih (fun hm => h (by simp [keysOf] at hm ⊢; exact Or.inr hm))

lemma tableAt_some_mem (lt : List (Int × List ℚ)) (y a : Int) (p : ℚ)
    (h : tableAt lt y a = some p) : ∃ pr ∈ lt, p ∈ pr.2 := by
  cases hl : alookup lt y with
  | none => simp [tableAt, hl] at h
  | some row =>
    by_cases ha : 0 ≤ a
    · have h2 : row[a.toNat]? = some p := by simpa [tableAt, hl, ha] using h
      exact ⟨(y, row), alookup_mem_pair lt y row hl, List.getElem?_mem h2⟩
    · simp [tableAt, hl, ha] at h

lemma tableAt_none_of_not_mem (lt : List (Int × List ℚ)) (y a : Int)
    (h : y ∉ keysOf lt) : tableAt lt y a = none := by
  rw [tableAt, alookup_eq_none lt y h]

lemma approxProb_bounds (age : Int) (h : 0 ≤ age) :
    0 ≤ approxProb age ∧ approxProb age ≤ 1 := by
  constructor
  · exact le_max_left 0 _
  · apply max_le (by norm_num)
    have h2 : (0 : ℚ) ≤ (age : ℚ) * (12 / 1000) :=
      mul_nonneg (by exact_mod_cast h) (by norm_num)
    linarith

lemma survivalProb_cases (lt : List (Int × List ℚ)) (year age : Int) :
    (∃ pr ∈ lt, survivalProb lt year age ∈ pr.2) ∨
      survivalProb lt year age = approxProb age := by
  cases h : tableAt lt year age with
  | some p =>
    left
    have : survivalProb lt year age = p := by simp [survivalProb, h]
    rw [this]
    exact tableAt_some_mem lt year age p h
  | none =>
    cases hf : (List.insertionSort geInt (keysOf lt)).find?
        (fun y => (tableAt lt y age).isSome) with
    | none => right; simp [survivalProb, h, hf]
    | some cy =>
      by_cases hz : cy = 0
      · right; simp [survivalProb, h, hf, hz]
      · cases hc : tableAt lt cy age with
        | none => right; simp [survivalProb, h, hf, hz, hc]
        | some p =>
          left
          have : survivalProb lt year age = p := by simp [survivalProb, h, hf, hz, hc]
          rw [this]
          exact tableAt_some_mem lt cy age p hc

lemma survivalProb_bounds (lt : List (Int × List ℚ)) (year age : Int)
    (hlt : ∀ pr ∈ lt, ∀ p ∈ pr.2, 0 ≤ p ∧ p ≤ 1) (hage : 0 ≤ age) :
    0 ≤ survivalProb lt year age ∧ survivalProb lt year age ≤ 1 := by
  rcases survivalProb_cases lt year age with ⟨pr, hpr, hmem⟩ | happ
  · exact hlt pr hpr _ hmem
  · rw [happ]; exact approxProb_bounds age hage

lemma jsRound_nonneg (q : ℚ) (h : 0 ≤ q) : 0 ≤ jsRound q := by
  rw [jsRound]
  exact Int.le_floor.mpr (by push_cast; linarith)

lemma jsRound_le_nat (q : ℚ) (n : Nat) (h : q ≤ (n : ℚ)) : jsRound q ≤ (n : Int) := by
  rw [jsRound]
  have h1 : ⌊q + 1 / 2⌋ ≤ ⌊((n : Int) : ℚ) + 1 / 2⌋ := by
    apply Int.floor_le_floor
    push_cast
    linarith
  have h2 : ⌊((n : Int) : ℚ) + 1 / 2⌋ = (n : Int) := by
    rw [Int.floor_int_add]
    norm_num
  omega

lemma cumLiving_cons (e : Entry) (rest : List Entry) (n : Nat) :
    cumLiving (e :: rest) (n + 1) = e.living + cumLiving rest n := by
  simp [cumLiving]

lemma firstHitAge_isSome (l : List Entry) (cum : Int) (t : ℚ) (hne : l ≠ [])
    (hsum : t ≤ ((cum + (l.map Entry.living).sum : Int) : ℚ)) :
    (firstHitAge l cum t).isSome := by
  induction l generalizing cum with
  | nil => exact absurd rfl hne
  | cons e rest ih =>
    rw [firstHitAge]
    by_cases hc : t ≤ ((cum + e.living : Int) : ℚ)
    · rw [if_pos hc]; rfl
    · rw [if_neg hc]
      have hrest : rest ≠ [] := by
        intro hr
        apply hc
        subst hr
        simpa using hsum
      have key : cum + ((e :: rest).map Entry.living).sum =
          cum + e.living + (rest.map Entry.living).sum := by
        simp [List.map_cons, List.sum_cons]
        ring
      rw [key] at hsum
      exact ih (cum + e.living) hrest hsum

lemma firstHitAge_mem (l : List Entry) (cum : Int) (t : ℚ) (a : Int)
    (h : firstHitAge l cum t = some a) : ∃ e ∈ l, a = e.age := by
  induction l generalizing cum with
  | nil => simp [firstHitAge] at h
  | cons e rest ih =>
    rw [firstHitAge] at h
    by_cases hc : t ≤ ((cum + e.living : Int) : ℚ)
    · rw [if_pos hc] at h
      exact ⟨e, List.mem_cons_self _ _, by simpa using h.symm⟩
    · rw [if_neg hc] at h
      obtain ⟨f, hf, ha⟩ := ih (cum + e.living) h
      exact ⟨f, List.mem_cons_of_mem _ hf, ha⟩

lemma firstHitAge_first (l : List Entry) (cum : Int) (t : ℚ) (a : Int)
    (h : firstHitAge l cum t = some a) :
    ∃ n : Nat, ∃ hn : n < l.length, a = (l.get ⟨n, hn⟩).age
      ∧ t ≤ ((cum + cumLiving l (n + 1) : Int) : ℚ)
      ∧ ∀ j < n, ((cum + cumLiving l (j + 1) : Int) : ℚ) < t := by
  induction l generalizing cum with
  | nil => simp [firstHitAge] at h
  | cons e rest ih =>
    rw [firstHitAge] at h
    by_cases hc : t ≤ ((cum + e.living : Int) : ℚ)
    · rw [if_pos hc] at h
      obtain rfl : a = e.age := by simpa using h.symm
      refine ⟨0, Nat.succ_pos _, rfl, ?_, ?_⟩
      · have h1 : cumLiving (e :: rest) 1 = e.living := by simp [cumLiving]
        rw [h1]
        exact hc
      · intro j hj
        exact absurd hj (Nat.not_lt_zero j)
    · rw [if_neg hc] at h
      obtain ⟨n, hn, ha, hhit, hbefore⟩ := ih (cum + e.living) h
      refine ⟨n + 1, by simpa using Nat.succ_lt_succ hn, ?_, ?_, ?_⟩
      · exact ha
      · rw [cumLiving_cons]
        have key : cum + (e.living + cumLiving rest (n + 1)) =
            cum + e.living + cumLiving rest (n + 1) := by ring
        rw [key]
        exact hhit
      · intro j hj
        cases j with
        | zero =>
          have h1 : cumLiving (e :: rest) 1 = e.living := by simp [cumLiving]
          rw [h1]
          exact lt_of_not_le hc
        | succ j2 =>
          rw [cumLiving_cons]
          have key : cum + (e.living + cumLiving rest (j2 + 1)) =
              cum + e.living + cumLiving rest (j2 + 1) := by ring
          rw [key]
          exact hbefore j2 (by omega)

lemma firstHitAge_anti (l : List Entry) (hs : List.Sorted geAge l) (cum : Int)
    (t1 t2 : ℚ) (h12 : t1 ≤ t2) (a1 a2 : Int)
    (h1 : firstHitAge l cum t1 = some a1) (h2 : firstHitAge l cum t2 = some a2) :
    a2 ≤ a1 := by
  induction l generalizing cum with
  | nil => simp [firstHitAge] at h1
  | cons e rest ih =>
    rw [List.sorted_cons] at hs
    obtain ⟨hhead, htail⟩ := hs
    rw [firstHitAge] at h1 h2
    by_cases c2 : t2 ≤ ((cum + e.living : Int) : ℚ)
    · have c1 : t1 ≤ ((cum + e.living : Int) : ℚ) := le_trans h12 c2
      rw [if_pos c1] at h1
      rw [if_pos c2] at h2
      obtain rfl : a1 = e.age := by simpa using h1.symm
      obtain rfl : a2 = e.age := by simpa using h2.symm
      exact le_refl _
    · rw [if_neg c2] at h2
      by_cases c1 : t1 ≤ ((cum + e.living : Int) : ℚ)
      · rw [if_pos c1] at h1
        obtain rfl : a1 = e.age := by simpa using h1.symm
        obtain ⟨f, hf, rfl⟩ := firstHitAge_mem rest (cum + e.living) t2 a2 h2
        exact hhead f hf
      · rw [if_neg c1] at h1
        exact ih htail (cum + e.living) h1 h2

lemma regOr_none (a : Option Int) : regOr a none = a := by
  cases a <;> rfl

lemma rangeLoop_eq (l : List Entry) (cum totalLiv : Int) (lT uT : ℚ)
    (la ua : Option Int) :
    rangeLoop l cum totalLiv lT uT la ua =
      (regOr la (firstHitAge l cum ((totalLiv : ℚ) - lT)),
       regOr ua (firstHitAge l cum ((totalLiv : ℚ) - uT))) := by
  induction l generalizing cum la ua with
  | nil => simp [rangeLoop, firstHitAge, regOr_none]
  | cons e rest ih =>
    by_cases cu : (totalLiv : ℚ) - uT ≤ ((cum + e.living : Int) : ℚ) <;>
      by_cases cl : (totalLiv : ℚ) - lT ≤ ((cum + e.living : Int) : ℚ) <;>
      rcases la with _ | x <;> rcases ua with _ | u <;>
      simp only [rangeLoop, firstHitAge, regOr, cu, cl, and_true, and_false,
        true_and, false_and, if_true, if_false, eq_self_iff_true, reduceCtorEq,
        ne_eq, not_false_iff, not_true, ih, Option.some.injEq, if_pos, if_neg]

lemma find_eq_of_sorted_ge (l : List Int) (hs : List.Sorted geInt l)
    (p : Int → Bool) (m : Int) (hm : m ∈ l) (hpm : p m = true)
    (hmax : ∀ y ∈ l, m < y → p y = false) :
    l.find? p = some m := by
  induction l with
  | nil => simp at hm
  | cons a rest ih =>
    rw [List.sorted_cons] at hs
    obtain ⟨hhead, htail⟩ := hs
    cases hpa : p a with
    | true =>
      have ham : a = m := by
        rcases List.mem_cons.mp hm with rfl | hmr
        · rfl
        · have hle : m ≤ a := hhead m hmr
          by_cases hlt : m < a
          · have := hmax a (List.mem_cons_self a rest) hlt
            rw [this] at hpa
            exact absurd hpa (by simp)
          · omega
      rw [List.find?_cons_of_pos _ hpa, ham]
    | false =>
      have hmr : m ∈ rest := by
        rcases List.mem_cons.mp hm with rfl | hmr
        · rw [hpm] at hpa; exact absurd hpa (by simp)
        · exact hmr
      rw [List.find?_cons_of_neg _ (by simp [hpa])]
      exact ih htail hmr (fun y hy hlt => hmax y (List.mem_cons_of_mem a hy) hlt)

lemma foldl_pick_mem (f : Entry → Entry → Entry)
    (hf : ∀ m e, f m e = m ∨ f m e = e) (l : List Entry) (h : Entry) :
    l.foldl f h = h ∨ l.foldl f h ∈ l := by
  induction l generalizing h with
  | nil => exact Or.inl rfl
  | cons e rest ih =>
    rw [List.foldl_cons]
    rcases ih (f h e) with hc | hc
    · rcases hf h e with h2 | h2
      · left; rw [hc, h2]
      · right; rw [hc, h2]; exact List.mem_cons_self _ _
    · right; exact List.mem_cons_of_mem _ hc

lemma mem_calculateAgeDistribution (name gender : String) (bn : List (Int × Nat))
    (lt : List (Int × List ℚ)) (e : Entry)
    (he : e ∈ calculateAgeDistribution name gender (some bn) (some lt)) :
    ∃ year : Int, ∃ births : Nat, alookup bn year = some births ∧ births ≠ 0 ∧
      e = ⟨year, births,
           jsRound ((births : ℚ) * survivalProb lt year (CURRENT_YEAR - year)),
           CURRENT_YEAR - year⟩ := by
  simp only [calculateAgeDistribution] at he
  by_cases hname : name = ""
  · rw [if_pos hname] at he
    simp at he
  · rw [if_neg hname] at he
    obtain ⟨year, hymem, hf⟩ := List.mem_filterMap.mp he
    rcases hb : alookup bn year with _ | births
    · simp [hb] at hf
    · by_cases hz : births = 0
      · simp [hb, hz] at hf
      · refine ⟨year, births, hb, hz, ?_⟩
        simp [hb, hz] at hf
        exact hf.symm

lemma calculateAgeDistribution_mem_of (name gender : String) (bn : List (Int × Nat))
    (lt : List (Int × List ℚ)) (year : Int) (births : Nat)
    (hname : name ≠ "") (hl : alookup bn year = some births) (hb : births ≠ 0) :
    (⟨year, births,
      jsRound ((births : ℚ) * survivalProb lt year (CURRENT_YEAR - year)),
      CURRENT_YEAR - year⟩ : Entry) ∈
        calculateAgeDistribution name gender (some bn) (some lt) := by
  simp only [calculateAgeDistribution]
  rw [if_neg hname]
  apply List.mem_filterMap.mpr
  refine ⟨year, ?_, ?_⟩
  · have hk : year ∈ keysOf bn := alookup_mem_keys bn year births hl
    exact (List.perm_insertionSort leInt (keysOf bn)).mem_iff.mpr hk
  · simp [hl, hb]

/-- C6: on the empty distribution, calculateStats returns exactly the all-zero
summary record {totalLiving: 0, medianAge: 0, peakBirthYear: {0,0},
ageRange: {0,0}, yearRange: {0,0}}. -/
theorem calculateStats_empty :
    calculateStats ([] : List Entry) = ⟨0, 0, ⟨0, 0⟩, ⟨0, 0⟩, ⟨0, 0⟩⟩ := by
  norm_num [calculateStats, calculateTotalLiving, calculateMedianAge,
    findPeakBirthYear, calculateAgeRange, totalLiving]

/-- C9: the gender argument of calculateAgeDistribution is never read, so any
two gender values with identical remaining arguments yield identical results. -/
theorem calculateAgeDistribution_gender_irrelevant (name g1 g2 : String)
    (bn : Option (List (Int × Nat))) (lt : Option (List (Int × List ℚ))) :
    calculateAgeDistribution name g1 bn lt = calculateAgeDistribution name g2 bn lt := rfl

/-- C2 counterexample: the birth year 2026 exceeds CURRENT_YEAR = 2025 and has
positive births, yet calculateAgeDistribution does not skip it: the returned
distribution is exactly one entry with negative age -1. -/
theorem c2_counterexample :
    calculateAgeDistribution "A" "male" (some [(2026, 5)]) (some []) =
      [⟨2026, 5, 5, -1⟩] ∧ ((-1 : Int) < 0) := by
  constructor
  · norm_num [calculateAgeDistribution, keysOf, List.insertionSort,
      List.orderedInsert, leInt, alookup, survivalProb, tableAt, approxProb,
      jsRound, CURRENT_YEAR, List.filterMap, Option.getD, String.reduceEq] <;> decide
  · norm_num

/-- C2 (amended): years with positive births are never skipped for being in the
future: every year present in the birth series with a nonzero count yields an
entry whose age is CURRENT_YEAR - year, which is negative when year exceeds
CURRENT_YEAR. -/
theorem calculateAgeDistribution_future_not_skipped (name gender : String)
    (bn : List (Int × Nat)) (lt : List (Int × List ℚ)) (year : Int) (births : Nat)
    (hname : name ≠ "") (hl : alookup bn year = some births) (hb : births ≠ 0) :
    ∃ e ∈ calculateAgeDistribution name gender (some bn) (some lt),
      e.year = year ∧ e.births = births ∧ e.age = CURRENT_YEAR - year :=
  ⟨_, calculateAgeDistribution_mem_of name gender bn lt year births hname hl hb,
    rfl, rfl, rfl⟩

/-- Witness for C2 (amended) at the future birth year 2026. -/
theorem c2_witness :
    ∃ e ∈ calculateAgeDistribution "A" "male" (some [(2026, 5)]) (some []),
      e.year = 2026 ∧ e.births = 5 ∧ e.age = CURRENT_YEAR - 2026 :=
  calculateAgeDistribution_future_not_skipped "A" "male" [(2026, 5)] [] 2026 5
    (by decide) (by decide) (by decide)

/-- C1 counterexample: with the empty (hence vacuously well-formed) survival
table and the future birth year 2026, the produced entry has living = 101 but
births = 100, violating living ≤ births: no final clamp is applied. -/
theorem c1_counterexample :
    (∀ pr ∈ ([] : List (Int × List ℚ)), ∀ p ∈ pr.2, 0 ≤ p ∧ p ≤ 1) ∧
    calculateAgeDistribution "A" "female" (some [(2026, 100)]) (some []) =
      [⟨2026, 100, 101, -1⟩] ∧ ¬((101 : Int) ≤ 100) := by
  refine ⟨by simp, ?_, by norm_num⟩
  norm_num [calculateAgeDistribution, keysOf, List.insertionSort,
    List.orderedInsert, leInt, alookup, survivalProb, tableAt, approxProb,
    jsRound, CURRENT_YEAR, List.filterMap, Option.getD, String.reduceEq] <;> decide

/-- C1 (amended): provided every survival-table probability lies in [0,1], every
entry with non-negative age (birth year at most CURRENT_YEAR) satisfies
0 ≤ living ≤ births. -/
theorem calculateAgeDistribution_living_bounds (name gender : String)
    (bn : List (Int × Nat)) (lt : List (Int × List ℚ))
    (hlt : ∀ pr ∈ lt, ∀ p ∈ pr.2, 0 ≤ p ∧ p ≤ 1)
    (e : Entry) (he : e ∈ calculateAgeDistribution name gender (some bn) (some lt))
    (hage : 0 ≤ e.age) :
    0 ≤ e.living ∧ e.living ≤ (e.births : Int) := by
  obtain ⟨year, births, hl, hb, rfl⟩ :=
    mem_calculateAgeDistribution name gender bn lt e he
  have hage2 : (0 : Int) ≤ CURRENT_YEAR - year := hage
  obtain ⟨hp0, hp1⟩ := survivalProb_bounds lt year (CURRENT_YEAR - year) hlt hage2
  constructor
  · exact jsRound_nonneg _ (mul_nonneg (by positivity) hp0)
  · apply jsRound_le_nat _ births
    calc (births : ℚ) * survivalProb lt year (CURRENT_YEAR - year)
        ≤ (births : ℚ) * 1 := mul_le_mul_of_nonneg_left hp1 (by positivity)
      _ = (births : ℚ) := mul_one _

/-- Witness for C1 (amended): birth year 2000, age 25, approximated survival
probability 0.7, living 70 within [0, 100]. -/
theorem c1_witness :
    0 ≤ (⟨2000, 100, 70, 25⟩ : Entry).living ∧
      (⟨2000, 100, 70, 25⟩ : Entry).living ≤ ((⟨2000, 100, 70, 25⟩ : Entry).births : Int) :=
  calculateAgeDistribution_living_bounds "A" "x" [(2000, 100)] [] (by simp)
    ⟨2000, 100, 70, 25⟩
    (by
      have hd : calculateAgeDistribution "A" "x" (some [(2000, 100)]) (some []) =
          [⟨2000, 100, 70, 25⟩] := by
        norm_num [calculateAgeDistribution, keysOf, List.insertionSort,
          List.orderedInsert, leInt, alookup, survivalProb, tableAt, approxProb,
          jsRound, CURRENT_YEAR, List.filterMap, Option.getD, String.reduceEq] <;> decide
      rw [hd]
      exact List.mem_singleton.mpr rfl)
    (by decide)

lemma tableAt_some_key (lt : List (Int × List ℚ)) (y a : Int) (p : ℚ)
    (h : tableAt lt y a = some p) : y ∈ keysOf lt := by
  cases hl : alookup lt y with
  | none => simp [tableAt, hl] at h
  | some row => exact alookup_mem_keys lt y row hl

/-- C3 counterexample: the survival table defines age 0 only under year 0; the
claimed cross-year fallback would resolve 1/2, but the truthiness check in the code
rejects the year 0 and uses the linear approximation, returning 1. -/
theorem c3_counterexample :
    tableAt [((0 : Int), [(1 : ℚ)/2])] 0 0 = some (1/2) ∧
    tableAt [((0 : Int), [(1 : ℚ)/2])] 2025 0 = none ∧
    survivalProb [((0 : Int), [(1 : ℚ)/2])] 2025 0 = 1 ∧ ((1 : ℚ) ≠ 1/2) := by
  refine ⟨?_, ?_, ?_, by norm_num⟩
  · norm_num [tableAt, alookup]
  · norm_num [tableAt, alookup]
  · norm_num [survivalProb, tableAt, alookup, keysOf, List.insertionSort,
      List.orderedInsert, geInt, approxProb, List.find?]

/-- C3 (amended): three-tier survival probability resolution with the year-0
exception. (1) An exact table hit is used as is. (2) If the exact lookup fails
and cy is the most recent (largest) year whose sequence defines the age, its
value is used provided cy is nonzero. (3) If no year defines the age, the
linear approximation is used. (4) If the most recent year defining the age is
the year 0, the truthiness check discards it and the approximation is used.
(5) The approximation is exactly 1 at age 0 and exactly 0 at age 100. -/
theorem survivalProb_resolution :
    (∀ (lt : List (Int × List ℚ)) (year age : Int) (p : ℚ),
        tableAt lt year age = some p → survivalProb lt year age = p)
    ∧ (∀ (lt : List (Int × List ℚ)) (year age cy : Int) (p : ℚ),
        tableAt lt year age = none → cy ≠ 0 → tableAt lt cy age = some p →
        (∀ y ∈ keysOf lt, cy < y → tableAt lt y age = none) →
        survivalProb lt year age = p)
    ∧ (∀ (lt : List (Int × List ℚ)) (year age : Int),
        (∀ y ∈ keysOf lt, tableAt lt y age = none) →
        survivalProb lt year age = approxProb age)
    ∧ (∀ (lt : List (Int × List ℚ)) (year age : Int) (p : ℚ),
        tableAt lt year age = none → tableAt lt 0 age = some p →
        (∀ y ∈ keysOf lt, 0 < y → tableAt lt y age = none) →
        survivalProb lt year age = approxProb age)
    ∧ approxProb 0 = 1 ∧ approxProb 100 = 0 := by
  refine ⟨?_, ?_, ?_, ?_, ?_, ?_⟩
  · intro lt year age p h
    simp [survivalProb, h]
  · intro lt year age cy p h0 hcy hsome hmax
    have hmem : cy ∈ keysOf lt := tableAt_some_key lt cy age p hsome
    have hfind : (List.insertionSort geInt (keysOf lt)).find?
        (fun y => (tableAt lt y age).isSome) = some cy := by
      apply find_eq_of_sorted_ge _ (List.sorted_insertionSort geInt (keysOf lt))
      · exact (List.perm_insertionSort geInt (keysOf lt)).mem_iff.mpr hmem
      · simp [hsome]
      · intro y hy hlt2
        have hyk : y ∈ keysOf lt :=
          (List.perm_insertionSort geInt (keysOf lt)).mem_iff.mp hy
        simp [hmax y hyk hlt2]
    simp [survivalProb, h0, hfind, hcy, hsome]
  · intro lt year age hall
    have h0 : tableAt lt year age = none := by
      by_cases hk : year ∈ keysOf lt
      · exact hall year hk
      · exact tableAt_none_of_not_mem lt year age hk
    have hfind : (List.insertionSort geInt (keysOf lt)).find?
        (fun y => (tableAt lt y age).isSome) = none := by
      apply List.find?_eq_none.mpr
      intro y hy
      have hyk : y ∈ keysOf lt :=
        (List.perm_insertionSort geInt (keysOf lt)).mem_iff.mp hy
      simp [hall y hyk]
    simp [survivalProb, h0, hfind]
  · intro lt year age p h0 hz hmax
    have hmem : (0 : Int) ∈ keysOf lt := tableAt_some_key lt 0 age p hz
    have hfind : (List.insertionSort geInt (keysOf lt)).find?
        (fun y => (tableAt lt y age).isSome) = some 0 := by
      apply find_eq_of_sorted_ge _ (List.sorted_insertionSort geInt (keysOf lt))
      · exact (List.perm_insertionSort geInt (keysOf lt)).mem_iff.mpr hmem
      · simp [hz]
      · intro y hy hlt2
        have hyk : y ∈ keysOf lt :=
          (List.perm_insertionSort geInt (keysOf lt)).mem_iff.mp hy
        simp [hmax y hyk hlt2]
    simp [survivalProb, h0, hfind]
  · norm_num [approxProb]
  · have h1 : (1 : ℚ) - ((100 : Int) : ℚ) * (12 / 1000) = -1/5 := by norm_num
    rw [approxProb, h1]
    exact max_eq_left (by norm_num)

/-- Witness for C3 (amended): an exact table hit at year 2000, age 0 resolves to
its stored probability 3/4. -/
theorem c3_witness : survivalProb [((2000 : Int), [(3 : ℚ)/4])] 2000 0 = 3/4 :=
  survivalProb_resolution.1 [((2000 : Int), [(3 : ℚ)/4])] 2000 0 (3/4)
    (by norm_num [tableAt, alookup])

lemma totalLiving_nonneg (d : List Entry) (hnn : ∀ e ∈ d, 0 ≤ e.living) :
    0 ≤ totalLiving d := by
  rw [totalLiving_eq]
  apply List.sum_nonneg
  intro x hx
  obtain ⟨e, he, rfl⟩ := List.mem_map.mp hx
  exact hnn e he

lemma sortByAgeDesc_ne_nil (d : List Entry) (hne : d ≠ []) : sortByAgeDesc d ≠ [] := by
  intro h
  apply hne
  have hlen : (sortByAgeDesc d).length = d.length := (sortByAgeDesc_perm d).length_eq
  rw [h] at hlen
  exact List.length_eq_zero.mp hlen.symm

lemma firstHitAge_fires (d : List Entry) (hne : d ≠ []) (t : ℚ)
    (ht : t ≤ ((totalLiving d : Int) : ℚ)) :
    (firstHitAge (sortByAgeDesc d) 0 t).isSome := by
  apply firstHitAge_isSome _ _ _ (sortByAgeDesc_ne_nil d hne)
  rw [zero_add]
  have hsum : ((sortByAgeDesc d).map Entry.living).sum = totalLiving d := by
    rw [← totalLiving_eq]
    exact totalLiving_sortByAgeDesc d
  rw [hsum]
  exact ht

/-- C4: calculateMedianAge returns 0 when the distribution is empty or total
living is zero; otherwise (entries having non-negative living) it returns the
age of the first entry, in descending-age order, at which the running sum of
living reaches or exceeds half the total living; on the concrete three-entry
distribution of the spec it returns 25. -/
theorem calculateMedianAge_spec :
    (calculateMedianAge [] = 0)
    ∧ (∀ d : List Entry, totalLiving d = 0 → calculateMedianAge d = 0)
    ∧ (∀ d : List Entry, (∀ e ∈ d, 0 ≤ e.living) → totalLiving d ≠ 0 →
        ∃ n : Nat, ∃ hn : n < (sortByAgeDesc d).length,
          calculateMedianAge d = ((sortByAgeDesc d).get ⟨n, hn⟩).age
          ∧ (totalLiving d : ℚ) / 2 ≤ ((cumLiving (sortByAgeDesc d) (n + 1) : Int) : ℚ)
          ∧ ∀ j < n,
              ((cumLiving (sortByAgeDesc d) (j + 1) : Int) : ℚ) < (totalLiving d : ℚ) / 2)
    ∧ calculateMedianAge
        [⟨1996, 100, 100, 29⟩, ⟨2000, 200, 200, 25⟩, ⟨2004, 100, 100, 21⟩] = 25 := by
  refine ⟨by simp [calculateMedianAge], ?_, ?_, ?_⟩
  · intro d hT
    simp [calculateMedianAge, hT]
  · intro d hnn hT
    have hne : d ≠ [] := by
      intro h
      subst h
      exact hT rfl
    have hlen : ¬ d.length = 0 := by simpa [List.length_eq_zero] using hne
    have hpos : 0 < totalLiving d := by
      have h0 := totalLiving_nonneg d hnn
      omega
    have hTQ : (0 : ℚ) < ((totalLiving d : Int) : ℚ) := by exact_mod_cast hpos
    have hfire := firstHitAge_fires d hne ((totalLiving d : ℚ) / 2) (by linarith)
    obtain ⟨am, ham⟩ := Option.isSome_iff_exists.mp hfire
    have hmed : calculateMedianAge d = am := by
      simp [calculateMedianAge, hlen, hT, ham]
    obtain ⟨n, hn, ha, hhit, hbefore⟩ := firstHitAge_first _ _ _ _ ham
    rw [zero_add] at hhit
    refine ⟨n, hn, by rw [hmed]; exact ha, hhit, ?_⟩
    intro j hj
    have := hbefore j hj
    rw [zero_add] at this
    exact this
  · norm_num [calculateMedianAge, totalLiving, sortByAgeDesc, List.insertionSort,
      List.orderedInsert, geAge, firstHitAge, List.foldl]

/-- Witness for C4: the zero-total clause at the empty distribution, and the
concrete three-entry distribution evaluating to 25. -/
theorem c4_witness :
    calculateMedianAge [] = 0 ∧
    calculateMedianAge
      [⟨1996, 100, 100, 29⟩, ⟨2000, 200, 200, 25⟩, ⟨2004, 100, 100, 21⟩] = 25 :=
  ⟨calculateMedianAge_spec.2.1 [] rfl, calculateMedianAge_spec.2.2.2⟩

/-- C5: calculateAgeRange returns {0,0} on an empty or zero-total distribution;
otherwise its lower bound is the age of the first entry, in descending-age
order, at which the cumulative living reaches totalLiving multiplied by
(1 - lowerPercentile/100), and its upper bound likewise with the upper
percentile (the fused two-register loop equals two independent walks). -/
theorem calculateAgeRange_spec (d : List Entry) (lp up : ℚ) :
    calculateAgeRange d lp up =
      if d.length = 0 ∨ totalLiving d = 0 then ⟨0, 0⟩
      else
        ⟨(firstHitAge (sortByAgeDesc d) 0
            ((totalLiving d : ℚ) * (1 - lp / 100))).getD 0,
         (firstHitAge (sortByAgeDesc d) 0
            ((totalLiving d : ℚ) * (1 - up / 100))).getD 0⟩ := by
  by_cases h1 : d.length = 0
  · simp [calculateAgeRange, h1]
  · by_cases h2 : totalLiving d = 0
    · simp [calculateAgeRange, h1, h2]
    · have hl2 : ((totalLiving d : Int) : ℚ) - (totalLiving d : ℚ) * (lp / 100) =
          (totalLiving d : ℚ) * (1 - lp / 100) := by ring
      have hu2 : ((totalLiving d : Int) : ℚ) - (totalLiving d : ℚ) * (up / 100) =
          (totalLiving d : ℚ) * (1 - up / 100) := by ring
      simp only [calculateAgeRange]
      rw [if_neg h1, if_neg h2, rangeLoop_eq, hl2, hu2,
        if_neg (fun h => h.elim h1 h2)]
      simp [regOr]

/-- C10: when total living is positive, the cumulative walk of the median
computation always returns from inside the loop, so the trailing most-common
fallback of calculateMedianAge is unreachable. -/
theorem medianWalk_always_fires (d : List Entry) (hpos : 0 < totalLiving d) :
    ∃ a : Int, firstHitAge (sortByAgeDesc d) 0 ((totalLiving d : ℚ) / 2) = some a
      ∧ calculateMedianAge d = a := by
  have hne : d ≠ [] := by
    intro h
    subst h
    exact absurd hpos (by decide)
  have hlen : ¬ d.length = 0 := by simpa [List.length_eq_zero] using hne
  have hT : totalLiving d ≠ 0 := ne_of_gt hpos
  have hTQ : (0 : ℚ) < ((totalLiving d : Int) : ℚ) := by exact_mod_cast hpos
  have hfire := firstHitAge_fires d hne ((totalLiving d : ℚ) / 2) (by linarith)
  obtain ⟨a, ha⟩ := Option.isSome_iff_exists.mp hfire
  exact ⟨a, ha, by simp [calculateMedianAge, hlen, hT, ha]⟩

/-- Witness for C10 at a one-entry distribution with positive living. -/
theorem c10_witness :
    ∃ a : Int, firstHitAge (sortByAgeDesc [⟨2005, 20, 20, 20⟩]) 0
        ((totalLiving [⟨2005, 20, 20, 20⟩] : ℚ) / 2) = some a
      ∧ calculateMedianAge [⟨2005, 20, 20, 20⟩] = a :=
  medianWalk_always_fires [⟨2005, 20, 20, 20⟩] (by decide)

/-- C8 counterexample: the one-entry distribution with living 0 has min age =
max age = 5, but calculateMedianAge returns 0 through its zero-total branch, so
the median does not lie within [min age, max age]. -/
theorem c8_counterexample :
    calculateMedianAge [⟨2020, 5, 0, 5⟩] = 0 ∧
    ¬((5 : Int) ≤ calculateMedianAge [⟨2020, 5, 0, 5⟩] ∧
        calculateMedianAge [⟨2020, 5, 0, 5⟩] ≤ 5) := by
  have h : calculateMedianAge [⟨2020, 5, 0, 5⟩] = 0 := by
    norm_num [calculateMedianAge, totalLiving, List.foldl]
  refine ⟨h, ?_⟩
  rw [h]
  norm_num

/-- C8 (amended): for a non-empty distribution with nonzero total living, the
median is the age of one of the entries, hence lies within any interval
[lo, hi] containing all the entry ages, in particular within
[min age, max age]. -/
theorem calculateMedianAge_in_range (d : List Entry) (hne : d ≠ [])
    (hT : totalLiving d ≠ 0) :
    (∃ e ∈ d, calculateMedianAge d = e.age)
    ∧ ∀ lo hi : Int, (∀ e ∈ d, lo ≤ e.age ∧ e.age ≤ hi) →
        lo ≤ calculateMedianAge d ∧ calculateMedianAge d ≤ hi := by
  obtain ⟨h0, rest, rfl⟩ : ∃ h0 rest, d = h0 :: rest := by
    cases d with
    | nil => exact absurd rfl hne
    | cons h0 rest => exact ⟨h0, rest, rfl⟩
  have hlen : ¬ (h0 :: rest).length = 0 := by simp
  have hmem : ∃ e ∈ h0 :: rest, calculateMedianAge (h0 :: rest) = e.age := by
    cases hfha : firstHitAge (sortByAgeDesc (h0 :: rest)) 0
        ((totalLiving (h0 :: rest) : ℚ) / 2) with
    | some a =>
      have hm : calculateMedianAge (h0 :: rest) = a := by
        simp [calculateMedianAge, hlen, hT, hfha]
      obtain ⟨e, he, ha⟩ := firstHitAge_mem _ _ _ _ hfha
      exact ⟨e, (sortByAgeDesc_perm (h0 :: rest)).mem_iff.mp he, by rw [hm, ha]⟩
    | none =>
      have hm : calculateMedianAge (h0 :: rest) =
          ((h0 :: rest).foldl (fun m e => if e.living > m.living then e else m) h0).age := by
        simp [calculateMedianAge, hlen, hT, hfha]
      have hpick : ∀ m e : Entry,
          (if e.living > m.living then e else m) = m ∨
          (if e.living > m.living then e else m) = e := by
        intro m e
        by_cases hh : e.living > m.living
        · right; rw [if_pos hh]
        · left; rw [if_neg hh]
      rcases foldl_pick_mem _ hpick (h0 :: rest) h0 with hc | hc
      · exact ⟨h0, List.mem_cons_self _ _, by rw [hm, hc]⟩
      · exact ⟨_, hc, by rw [hm]⟩
  refine ⟨hmem, ?_⟩
  intro lo hi hb
  obtain ⟨e, he, hm⟩ := hmem
  rw [hm]
  exact hb e he

/-- Witness for C8 (amended) at a one-entry distribution with positive living:
the median 15 is the age of the single entry. -/
theorem c8_witness :
    ∃ e ∈ [(⟨2010, 10, 10, 15⟩ : Entry)],
      calculateMedianAge [⟨2010, 10, 10, 15⟩] = e.age :=
  (calculateMedianAge_in_range [⟨2010, 10, 10, 15⟩] (by decide) (by decide)).1

/-- C7: for a non-empty distribution with positive total living and entries
with non-negative living values, under the default 10th/90th percentiles the
age-range lower bound is at most the median and the median is at most the
age-range upper bound. -/
theorem ageRange_bounds_median (d : List Entry) (hne : d ≠ [])
    (hpos : 0 < totalLiving d) (hnn : ∀ e ∈ d, 0 ≤ e.living) :
    (calculateAgeRange d 10 90).lower ≤ calculateMedianAge d
    ∧ calculateMedianAge d ≤ (calculateAgeRange d 10 90).upper := by
  have hlen : ¬ d.length = 0 := by simpa [List.length_eq_zero] using hne
  have hT : totalLiving d ≠ 0 := ne_of_gt hpos
  have hTQ : (0 : ℚ) < ((totalLiving d : Int) : ℚ) := by exact_mod_cast hpos
  obtain ⟨am, ham⟩ := Option.isSome_iff_exists.mp
    (firstHitAge_fires d hne ((totalLiving d : ℚ) / 2) (by linarith))
  obtain ⟨al, hal⟩ := Option.isSome_iff_exists.mp
    (firstHitAge_fires d hne
      ((totalLiving d : ℚ) - (totalLiving d : ℚ) * (10 / 100)) (by linarith))
  obtain ⟨au, hau⟩ := Option.isSome_iff_exists.mp
    (firstHitAge_fires d hne
      ((totalLiving d : ℚ) - (totalLiving d : ℚ) * (90 / 100)) (by linarith))
  have hmed : calculateMedianAge d = am := by
    simp [calculateMedianAge, hlen, hT, ham]
  have hrange : calculateAgeRange d 10 90 = ⟨al, au⟩ := by
    simp only [calculateAgeRange]
    rw [if_neg hlen, if_neg hT, rangeLoop_eq]
    simp [regOr, hal, hau]
  have h1 : al ≤ am :=
    firstHitAge_anti (sortByAgeDesc d) (sortByAgeDesc_sorted d) 0
      ((totalLiving d : ℚ) / 2)
      ((totalLiving d : ℚ) - (totalLiving d : ℚ) * (10 / 100))
      (by linarith) am al ham hal
  have h2 : am ≤ au :=
    firstHitAge_anti (sortByAgeDesc d) (sortByAgeDesc_sorted d) 0
      ((totalLiving d : ℚ) - (totalLiving d : ℚ) * (90 / 100))
      ((totalLiving d : ℚ) / 2)
      (by linarith) au am hau ham
  rw [hmed, hrange]
  exact ⟨h1, h2⟩

/-- Witness for C7 on the concrete three-entry distribution: age range
[21, 29] brackets the median 25. -/
theorem c7_witness :
    (calculateAgeRange
        [⟨1996, 100, 100, 29⟩, ⟨2000, 200, 200, 25⟩, ⟨2004, 100, 100, 21⟩]
        10 90).lower ≤
      calculateMedianAge
        [⟨1996, 100, 100, 29⟩, ⟨2000, 200, 200, 25⟩, ⟨2004, 100, 100, 21⟩]
    ∧ calculateMedianAge
        [⟨1996, 100, 100, 29⟩, ⟨2000, 200, 200, 25⟩, ⟨2004, 100, 100, 21⟩] ≤
      (calculateAgeRange
        [⟨1996, 100, 100, 29⟩, ⟨2000, 200, 200, 25⟩, ⟨2004, 100, 100, 21⟩]
        10 90).upper :=
  ageRange_bounds_median
    [⟨1996, 100, 100, 29⟩, ⟨2000, 200, 200, 25⟩, ⟨2004, 100, 100, 21⟩]
    (by decide) (by decide) (by decide)
